import Mathlib

/-!
Verification development for the vdsm Image and Volume Chain Engine.

This file gives a shallow embedding of the storage-chain code of
`lib/vdsm/storage/image.py` and `lib/vdsm/storage/fileVolume.py`
(plus the constants of `lib/vdsm/storage/constants.py`) and proves
properties of the embedded definitions.

Modelling conventions:
 * Storage state is an environment: a list of volume metadata records,
   looked up by volume UUID.  Side-effecting calls (setLegality, file
   removal, lvreduce, ...) are recorded as events in a trace.
 * Fallible Python code (raising storage exceptions) is embedded as
   `Except StorageError _` or as a trace paired with `Option StorageError`.
 * Python unbounded while-loops over parent pointers are embedded with
   explicit fuel; the artificial constructor `StorageError.fuelExhausted`
   marks fuel exhaustion and is unreachable for the fuel actually passed
   by the top level functions (one more than the number of volumes).
   `StorageError.indexError` models a Python IndexError.
-/

set_option linter.unusedVariables false

/-- Storage exceptions of `vdsm.storage.exception` that the embedded code can
raise.  `fuelExhausted` and `indexError` are modelling artifacts, see the
header comment. -/
inductive StorageError where
  | ImageDoesNotExistInSD
  | ImageIsNotLegalChain
  | VolumeDoesNotExist
  | InvalidParameterException
  | VolumeResizeValueError
  | StorageException
  | CannotDeleteVolume
  | DiscardIsNotSupported
  | fuelExhausted
  | indexError
deriving DecidableEq, Repr

/-- Neither Lean core nor Mathlib provide decidable equality on `Except`;
it is needed so that concrete runs of the embedded code can be checked
with `decide`. -/
instance {ε α : Type} [DecidableEq ε] [DecidableEq α] : DecidableEq (Except ε α) := by
  intro a b
  cases a <;> cases b
  case ok.ok x y =>
    exact if h : x = y then .isTrue (by rw [h]) else .isFalse (fun hc => by cases hc; exact h rfl)
  case error.error x y =>
    exact if h : x = y then .isTrue (by rw [h]) else .isFalse (fun hc => by cases hc; exact h rfl)
  case ok.error x y => exact .isFalse (fun hc => by cases hc)
  case error.ok x y => exact .isFalse (fun hc => by cases hc)

/-- VOLTYPE values (`sc.LEAF_VOL`, `sc.INTERNAL_VOL`, `sc.SHARED_VOL`). -/
inductive VolType where
  | LEAF
  | INTERNAL
  | SHARED
deriving DecidableEq, Repr

/-- LEGALITY values (`sc.LEGAL_VOL`, `sc.ILLEGAL_VOL`, `sc.FAKE_VOL`). -/
inductive Legality where
  | LEGAL
  | ILLEGAL
  | FAKE
deriving DecidableEq, Repr

/-- FORMAT values (`sc.RAW_FORMAT`, `sc.COW_FORMAT`, `sc.UNKNOWN_FORMAT`). -/
inductive VolFormat where
  | RAW
  | COW
  | UNKNOWN
deriving DecidableEq, Repr

/-- TYPE (allocation policy) values (`sc.PREALLOCATED_VOL`, `sc.SPARSE_VOL`). -/
inductive Prealloc where
  | PREALLOCATED
  | SPARSE
deriving DecidableEq, Repr

/-- `sc.BLANK_UUID`: the all-zero UUID denoting no parent. -/
def BLANK_UUID : String := "00000000-0000-0000-0000-000000000000"

/-- `sc.BLOCK_SIZE_512` and `sc.BLOCK_SIZE` of `storage/constants.py`. -/
def BLOCK_SIZE_512 : Nat := 512

/-- Modelled from the spec: a volume metadata record as the chain engine
reads it through the VolumeManifest accessors (`getParent`, `isLeaf`,
`isShared`, `getLegality`, `getVolumeSize`, `getChildren`, `chunked`,
`optimal_size`, and the qemu-img reported backing file basename).  The
accessor implementations live in `storage/volume.py` and the block volume
class, which are not part of the sources; their read results are therefore
carried as fields, following the data model section of the spec. -/
structure Volume where
  volUUID : String
  image : String
  parent : String
  voltype : VolType
  legality : Legality
  size : Nat
  chunked : Bool
  optimalSize : Nat
  backing : Option String
deriving DecidableEq, Repr

/-- The storage environment: the volume records the domain currently holds. -/
abbrev Env : Type := List Volume

/-- Volume lookup by UUID (`sdDom.produceVolume` / `volclass(...)`). -/
def Env.find (env : Env) (u : String) : Option Volume :=
  List.find? (fun v => v.volUUID = u) env

/-- Number of volume records in the environment. -/
def Env.size (env : Env) : Nat :=
  List.length env

/-- Events recording the side effects the embedded engine performs, in
program order. -/
inductive Event where
  | clearRecoveries
  | setLegality (vol : String) (l : Legality)
  | deleteVolume (vol : String)
  | prepare (vol : String)
  | teardown (vol : String)
  | reduce (vol : String) (sizeBlk : Nat)
  | setParentMeta (vol : String) (parent : String)
  | setParent (vol : String) (parent : String)
  | recheckIfLeaf (vol : String)
  | rmFile (path : String)
  | removeMetadata (vol : String)
  | templateRelink
  | logWarning
deriving DecidableEq, Repr

/-! ## FileVolumeManifest.optimal_size (fileVolume.py lines 370-384, claim C9) -/

/-- The fields of `FileVolumeManifest` that `optimal_size` reads:
`getFormat()` (metadata FORMAT), `getCapacity()` (metadata CAP) and
`getVolumeSize()` (the apparent file size reported by stat). -/
structure FileVolumeManifest where
  format : VolFormat
  capacity : Nat
  volumeSize : Nat
deriving DecidableEq, Repr

/-- `FileVolumeManifest.optimal_size` of fileVolume.py: the virtual size
when the format is RAW, the current apparent size otherwise. -/
def FileVolumeManifest.optimal_size (m : FileVolumeManifest) : Nat :=
  if m.format = VolFormat.RAW then m.capacity else m.volumeSize

/-! ## FileVolume._extendSizeRaw (fileVolume.py lines 695-725, claim C10) -/

/-- The file mutations `_extendSizeRaw` can perform:
`fallocate.allocate(volPath, length, offset)` or
`oop.truncateFile(volPath, size)`. -/
inductive ExtendAct where
  | fallocate (length : Int) (offset : Int)
  | truncateTo (size : Int)
deriving DecidableEq, Repr

/-- `FileVolume._extendSizeRaw`: `curSizeBytes` is the stat size of the
volume file, `new_size_blk` the requested size in 512 byte blocks and
`voltype` the allocation policy (`getType()`).  Returns the list of file
mutations performed. -/
def extendSizeRaw (curSizeBytes : Int) (new_size_blk : Nat) (voltype : Prealloc) :
    Except StorageError (List ExtendAct) :=
  let newSizeBytes : Int := (new_size_blk : Int) * 512
  if newSizeBytes = curSizeBytes then
    Except.ok []
  else if curSizeBytes ≤ 0 then
    Except.error StorageError.StorageException
  else if newSizeBytes < curSizeBytes then
    Except.error StorageError.VolumeResizeValueError
  else if voltype = Prealloc.PREALLOCATED then
    Except.ok [ExtendAct.fallocate (newSizeBytes - curSizeBytes) curSizeBytes]
  else
    Except.ok [ExtendAct.truncateTo newSizeBytes]

/-! ## FileVolume._create_raw_volume (fileVolume.py lines 442-478, claim C6) -/

/-- The backend calls `_create_raw_volume` performs on success:
`_truncate_volume`, `_fallocate_volume`, `_set_permissions`.  Backend
failures of these calls happen after the parameter validation modelled
here and are not in the scope of this embedding. -/
inductive CreateAct where
  | truncate (path : String) (size : Nat)
  | fallocate (path : String) (size : Nat)
  | chmod (path : String)
deriving DecidableEq, Repr

/-- `FileVolume._create_raw_volume`: validates `initial_size` against the
preallocation policy and the capacity, then truncates the file to the
capacity, preallocates `alloc_size` bytes for PREALLOCATED volumes when
`alloc_size` is not zero, and forces the file permissions. -/
def create_raw_volume (vol_path : String) (size : Nat) (initial_size : Option Nat)
    (preallocate : Prealloc) : Except StorageError (List CreateAct) :=
  match initial_size with
  | none =>
    Except.ok ([CreateAct.truncate vol_path size] ++
      (if preallocate = Prealloc.PREALLOCATED ∧ size ≠ 0 then
        [CreateAct.fallocate vol_path size] else []) ++
      [CreateAct.chmod vol_path])
  | some i =>
    if preallocate = Prealloc.SPARSE then
      Except.error StorageError.InvalidParameterException
    else if i > size then
      Except.error StorageError.InvalidParameterException
    else
      Except.ok ([CreateAct.truncate vol_path size] ++
        (if preallocate = Prealloc.PREALLOCATED ∧ i ≠ 0 then
          [CreateAct.fallocate vol_path i] else []) ++
        [CreateAct.chmod vol_path])

/-- The backend calls a result of `create_raw_volume` actually performs:
none when it failed. -/
def createActsOf (r : Except StorageError (List CreateAct)) : List CreateAct :=
  match r with
  | Except.ok acts => acts
  | Except.error _ => []

/-! ## Claim theorems for C6, C9, C10 -/

/-- C9: for every prepared file volume, `optimal_size()` returns the
virtual capacity when the format is RAW and the current apparent file
size when the format is COW. -/
theorem optimal_size_spec (m : FileVolumeManifest) :
    (m.format = VolFormat.RAW → m.optimal_size = m.capacity) ∧
    (m.format = VolFormat.COW → m.optimal_size = m.volumeSize) := by
  constructor
  · intro h
    simp [FileVolumeManifest.optimal_size, h]
  · intro h
    simp [FileVolumeManifest.optimal_size, h]

theorem optimal_size_spec_witness :
    ((FileVolumeManifest.mk VolFormat.RAW 1024 512).format = VolFormat.RAW →
      (FileVolumeManifest.mk VolFormat.RAW 1024 512).optimal_size = 1024) ∧
    ((FileVolumeManifest.mk VolFormat.COW 1024 512).format = VolFormat.COW →
      (FileVolumeManifest.mk VolFormat.COW 1024 512).optimal_size = 512) :=
  ⟨(optimal_size_spec (FileVolumeManifest.mk VolFormat.RAW 1024 512)).1,
   (optimal_size_spec (FileVolumeManifest.mk VolFormat.COW 1024 512)).2⟩

/-- C6: creating a RAW file volume fails with InvalidParameterException
when `initial_size` is given together with SPARSE preallocation, and when
the given `initial_size` exceeds the requested capacity; in both failing
cases no preallocation (and no other backend call) is performed. -/
theorem create_raw_volume_validation (path : String) (size i : Nat) (p : Prealloc) :
    (create_raw_volume path size (some i) Prealloc.SPARSE =
      Except.error StorageError.InvalidParameterException) ∧
    (i > size → create_raw_volume path size (some i) p =
      Except.error StorageError.InvalidParameterException) ∧
    (createActsOf (create_raw_volume path size (some i) Prealloc.SPARSE) = []) ∧
    (i > size → createActsOf (create_raw_volume path size (some i) p) = []) := by
  refine ⟨by simp [create_raw_volume], ?_, by simp [create_raw_volume, createActsOf], ?_⟩
  · intro h
    cases p <;> simp [create_raw_volume, h, Nat.not_le.mpr h]
  · intro h
    cases p <;> simp [create_raw_volume, createActsOf, h, Nat.not_le.mpr h]

theorem create_raw_volume_validation_witness :
    (create_raw_volume "vol" 1024 (some 2048) Prealloc.SPARSE =
      Except.error StorageError.InvalidParameterException) ∧
    ((2048 : Nat) > 1024 ∧ create_raw_volume "vol" 1024 (some 2048) Prealloc.PREALLOCATED =
      Except.error StorageError.InvalidParameterException) ∧
    (createActsOf (create_raw_volume "vol" 1024 (some 2048) Prealloc.PREALLOCATED) = []) :=
  ⟨(create_raw_volume_validation "vol" 1024 2048 Prealloc.PREALLOCATED).1,
   ⟨by decide, (create_raw_volume_validation "vol" 1024 2048 Prealloc.PREALLOCATED).2.1 (by decide)⟩,
   (create_raw_volume_validation "vol" 1024 2048 Prealloc.PREALLOCATED).2.2.2 (by decide)⟩

/-- C10 counterexample: with a zero-sized file and a request of zero
blocks the current size is non-positive, yet `_extendSizeRaw` is a no-op
instead of raising a StorageException (the equality check runs first). -/
theorem extendSizeRaw_cex :
    extendSizeRaw 0 0 Prealloc.SPARSE = Except.ok [] ∧
    extendSizeRaw 0 0 Prealloc.SPARSE ≠ Except.error StorageError.StorageException := by
  constructor
  · decide
  · decide

/-- C10 as amended: extending a RAW file volume never shrinks it.  When
the requested size equals the current size the operation is a no-op;
when the current size is non-positive and differs from the requested size
a StorageException is raised; when the requested size is smaller than the
current size a VolumeResizeValueError is raised; the file is mutated only
when the requested size is strictly larger than the current one. -/
theorem extendSizeRaw_spec (cur : Int) (blk : Nat) (t : Prealloc) :
    ((blk : Int) * 512 = cur → extendSizeRaw cur blk t = Except.ok []) ∧
    (cur ≤ 0 → (blk : Int) * 512 ≠ cur →
      extendSizeRaw cur blk t = Except.error StorageError.StorageException) ∧
    ((blk : Int) * 512 < cur →
      extendSizeRaw cur blk t = Except.error StorageError.VolumeResizeValueError) ∧
    (∀ acts, extendSizeRaw cur blk t = Except.ok acts → acts ≠ [] →
      (blk : Int) * 512 > cur) := by
  have hnn : (0 : Int) ≤ (blk : Int) * 512 := by positivity
  refine ⟨?_, ?_, ?_, ?_⟩
  · intro h
    simp [extendSizeRaw, h]
  · intro h hne
    simp [extendSizeRaw, hne, h]
  · intro h
    have hne : (blk : Int) * 512 ≠ cur := by omega
    have hpos : ¬ cur ≤ 0 := by omega
    simp [extendSizeRaw, hne, hpos, h]
  · intro acts hok hne
    by_contra hgt
    have hle : cur ≤ (blk : Int) * 512 ∨ (blk : Int) * 512 < cur := by omega
    rcases eq_or_ne ((blk : Int) * 512) cur with heq | hneq
    · simp [extendSizeRaw, heq] at hok
      exact hne hok
    · rcases Int.le_or_lt cur 0 with hc0 | hc0
      · simp [extendSizeRaw, hneq, hc0] at hok
      · have hlt : (blk : Int) * 512 < cur := by omega
        have : ¬ cur ≤ 0 := by omega
        simp [extendSizeRaw, hneq, this, hlt] at hok

theorem extendSizeRaw_spec_witness :
    ((2 : Int) * 512 = 1024 ∧ extendSizeRaw 1024 2 Prealloc.SPARSE = Except.ok []) ∧
    ((-5 : Int) ≤ 0 ∧ extendSizeRaw (-5) 2 Prealloc.SPARSE =
      Except.error StorageError.StorageException) ∧
    ((1 : Int) * 512 < 1024 ∧ extendSizeRaw 1024 1 Prealloc.SPARSE =
      Except.error StorageError.VolumeResizeValueError) ∧
    (extendSizeRaw 512 2 Prealloc.SPARSE = Except.ok [ExtendAct.truncateTo 1024] →
      [ExtendAct.truncateTo 1024] ≠ [] → (2 : Int) * 512 > 512) :=
  ⟨⟨by decide, (extendSizeRaw_spec 1024 2 Prealloc.SPARSE).1 (by decide)⟩,
   ⟨by decide, (extendSizeRaw_spec (-5) 2 Prealloc.SPARSE).2.1 (by decide) (by decide)⟩,
   ⟨by decide, (extendSizeRaw_spec 1024 1 Prealloc.SPARSE).2.2.1 (by decide)⟩,
   (extendSizeRaw_spec 512 2 Prealloc.SPARSE).2.2.2 [ExtendAct.truncateTo 1024]⟩

/-! ## FileVolume.delete (fileVolume.py lines 551-604, claims C3 and C4) -/

/-- Outcomes of the primitive calls `FileVolume.delete` makes, so that the
cleanup behaviour under partial failure can be stated.  `Except.error e`
means the call raised `e`; a raising call performs no state change.
`validateR` stands for `validateDelete` (volume.py, outside the sources;
modelled from the spec as the shared/internal protection check run only
without `force`). -/
structure DeleteOps where
  validateR : Except StorageError Unit
  setLegalityR : Except StorageError Unit
  getParentR : Except StorageError String
  setParentR : Except StorageError Unit
  recheckR : Except StorageError Unit
  rmVolR : Except StorageError Unit
  rmLeaseR : Except StorageError Unit
  removeMetaR : Except StorageError Unit
deriving DecidableEq, Repr

/-- The first try block of `FileVolume.delete`: blank the parent record and
let the former parent become a leaf again.  Returns the events performed
and the exception captured by the except clause, if any. -/
def deleteFixup (ops : DeleteOps) (volUUID : String) : List Event × Option StorageError :=
  match ops.getParentR with
  | Except.error e => ([], some e)
  | Except.ok puuid =>
    match ops.setParentR with
    | Except.error e => ([], some e)
    | Except.ok _ =>
      if puuid ≠ "" ∧ puuid ≠ BLANK_UUID then
        match ops.recheckR with
        | Except.error e => ([Event.setParent volUUID BLANK_UUID], some e)
        | Except.ok _ =>
          ([Event.setParent volUUID BLANK_UUID, Event.recheckIfLeaf puuid], none)
      else
        ([Event.setParent volUUID BLANK_UUID], none)

/-- The second try block of `FileVolume.delete`: unlink the payload and the
lease file.  A failure on the payload skips the lease removal, as in the
source where both calls share one try block. -/
def deleteFiles (ops : DeleteOps) (vol_path lease_path : String) :
    List Event × Option StorageError :=
  match ops.rmVolR with
  | Except.error e => ([], some e)
  | Except.ok _ =>
    match ops.rmLeaseR with
    | Except.error e => ([Event.rmFile vol_path], some e)
    | Except.ok _ => ([Event.rmFile vol_path, Event.rmFile lease_path], none)

/-- `FileVolume.delete`: the volume path is modelled by the volume UUID and
the lease path by appending `sc.LEASE_FILEEXT`.  Returns the events
performed and either `ok true` (the source returns True) or the raised
exception.  The captured errors of the first two blocks are only
bookkeeping in the source: the final `raise eFound` runs only when
`removeMetadata` raised, at which point `eFound` has been overwritten with
that exception. -/
def fvDelete (ops : DeleteOps) (force discard : Bool) (volUUID : String) :
    List Event × Except StorageError Bool :=
  if discard then
    ([], Except.error StorageError.DiscardIsNotSupported)
  else
    let lease_path := volUUID ++ ".lease"
    match (if force then Except.ok () else ops.validateR) with
    | Except.error e => ([], Except.error e)
    | Except.ok _ =>
      match ops.setLegalityR with
      | Except.error e => ([], Except.error e)
      | Except.ok _ =>
        let t0 := [Event.setLegality volUUID Legality.ILLEGAL]
        let fixup := deleteFixup ops volUUID
        let files := deleteFiles ops volUUID lease_path
        match ops.removeMetaR with
        | Except.ok _ =>
          (t0 ++ fixup.1 ++ files.1 ++ [Event.removeMetadata volUUID], Except.ok true)
        | Except.error e =>
          (t0 ++ fixup.1 ++ files.1, Except.error e)

/-- A run of `fvDelete` where every primitive call succeeds and the parent
record holds the UUID `"p"`. -/
def deleteOpsOk : DeleteOps :=
  DeleteOps.mk (Except.ok ()) (Except.ok ()) (Except.ok "p") (Except.ok ())
    (Except.ok ()) (Except.ok ()) (Except.ok ()) (Except.ok ())

/-- A run of `fvDelete` where the lineage fix-up block raises a
StorageException and every other primitive call succeeds. -/
def deleteOpsFixupFails : DeleteOps :=
  DeleteOps.mk (Except.ok ()) (Except.ok ()) (Except.error StorageError.StorageException)
    (Except.ok ()) (Except.ok ()) (Except.ok ()) (Except.ok ()) (Except.ok ())

/-- C3 counterexample: on a fully successful delete of volume `"v"` with
parent `"p"` the volume is marked ILLEGAL before the lineage fix-up, so
the order claimed (fix-up first, ILLEGAL second) does not hold: in the
recorded trace the setLegality event precedes the setParent event. -/
theorem fileVolume_delete_order_cex :
    (fvDelete deleteOpsOk true false "v").1 =
      [Event.setLegality "v" Legality.ILLEGAL,
       Event.setParent "v" BLANK_UUID,
       Event.recheckIfLeaf "p",
       Event.rmFile "v", Event.rmFile "v.lease",
       Event.removeMetadata "v"] ∧
    ¬ ((fvDelete deleteOpsOk true false "v").1.indexOf
          (Event.setParent "v" BLANK_UUID) <
        (fvDelete deleteOpsOk true false "v").1.indexOf
          (Event.setLegality "v" Legality.ILLEGAL)) := by
  constructor
  · decide
  · decide

/-- C3 as amended: file-volume delete performs its steps in this order:
(1) mark the volume ILLEGAL; (2) lineage fix-up (set the parent record to
BLANK and recheckIfLeaf on the former parent); (3) remove the payload and
the lease; (4) remove the metadata record. -/
theorem fileVolume_delete_order (ops : DeleteOps) (vol p : String)
    (hval : ops.setLegalityR = Except.ok ())
    (hget : ops.getParentR = Except.ok p)
    (hset : ops.setParentR = Except.ok ())
    (hrc : ops.recheckR = Except.ok ())
    (hrv : ops.rmVolR = Except.ok ())
    (hrl : ops.rmLeaseR = Except.ok ())
    (hrm : ops.removeMetaR = Except.ok ())
    (hp : p ≠ "" ∧ p ≠ BLANK_UUID) :
    fvDelete ops true false vol =
      ([Event.setLegality vol Legality.ILLEGAL,
        Event.setParent vol BLANK_UUID,
        Event.recheckIfLeaf p,
        Event.rmFile vol, Event.rmFile (vol ++ ".lease"),
        Event.removeMetadata vol], Except.ok true) := by
  simp [fvDelete, deleteFixup, deleteFiles, hval, hget, hset, hrc, hrv, hrl, hrm, hp]

theorem fileVolume_delete_order_witness :
    fvDelete deleteOpsOk true false "w" =
      ([Event.setLegality "w" Legality.ILLEGAL,
        Event.setParent "w" BLANK_UUID,
        Event.recheckIfLeaf "p",
        Event.rmFile "w", Event.rmFile ("w" ++ ".lease"),
        Event.removeMetadata "w"], Except.ok true) :=
  fileVolume_delete_order deleteOpsOk "w" "p" rfl rfl rfl rfl rfl rfl rfl
    (by constructor <;> decide)

/-- C4 counterexample: the lineage fix-up fails with a StorageException
but the remaining steps succeed; delete returns True and the captured
error is never rethrown, contradicting the claim that the first captured
cleanup error is raised at the end. -/
theorem fileVolume_delete_error_cex :
    (fvDelete deleteOpsFixupFails true false "v").2 = Except.ok true ∧
    (fvDelete deleteOpsFixupFails true false "v").2 ≠
      Except.error StorageError.StorageException := by
  constructor
  · decide
  · decide

/-- C4 as amended: when cleanup steps of file-volume delete fail, delete
still runs the remaining steps; it raises only when the final
metadata-removal step fails, rethrowing that (most recently captured)
error, and when metadata removal succeeds delete returns True, discarding
the errors captured in the earlier steps. -/
theorem fileVolume_delete_error_policy (ops : DeleteOps) (vol : String)
    (hval : ops.setLegalityR = Except.ok ()) :
    (ops.removeMetaR = Except.ok () → (fvDelete ops true false vol).2 = Except.ok true) ∧
    (∀ e, ops.removeMetaR = Except.error e →
      (fvDelete ops true false vol).2 = Except.error e) ∧
    ((fvDelete ops true false vol).1 =
      Event.setLegality vol Legality.ILLEGAL ::
        ((deleteFixup ops vol).1 ++ (deleteFiles ops vol (vol ++ ".lease")).1 ++
          (match ops.removeMetaR with
           | Except.ok _ => [Event.removeMetadata vol]
           | Except.error _ => []))) := by
  refine ⟨?_, ?_, ?_⟩
  · intro h
    simp [fvDelete, hval, h]
  · intro e h
    simp [fvDelete, hval, h]
  · cases hm : ops.removeMetaR with
    | ok u => simp [fvDelete, hval, hm]
    | error e => simp [fvDelete, hval, hm]

theorem fileVolume_delete_error_policy_witness :
    (deleteOpsFixupFails.removeMetaR = Except.ok () →
      (fvDelete deleteOpsFixupFails true false "u").2 = Except.ok true) ∧
    ((fvDelete deleteOpsFixupFails true false "u").2 = Except.ok true) :=
  ⟨(fileVolume_delete_error_policy deleteOpsFixupFails "u" rfl).1,
   (fileVolume_delete_error_policy deleteOpsFixupFails "u" rfl).1 rfl⟩

/-! ## Image.getChain (image.py lines 164-229, claim C1) -/

/-- `volume.Volume.getParentVolume` as the chain engine uses it: None when
the parent record is BLANK, otherwise the parent volume produced from the
domain.  Modelled from the spec: the accessor itself lives in volume.py,
outside the sources; per the data model a BLANK parent means no parent and
a missing parent volume cannot be produced. -/
def getParentVolume (env : Env) (v : Volume) : Except StorageError (Option Volume) :=
  if v.parent = BLANK_UUID then
    Except.ok none
  else
    match env.find v.parent with
    | some p => Except.ok (some p)
    | none => Except.error StorageError.VolumeDoesNotExist

/-- `getImageVolumes`: the volumes of the environment belonging to the
image (the `*.meta` glob of fileVolume.py restricted to records whose
IMAGE key matches). -/
def getImageVolumes (env : Env) (img : String) : List Volume :=
  List.filter (fun v => v.image = img) env

/-- The parent walk of `Image.getChain` (the while loop of lines 214-228):
insert the current volume at the front of the chain, record it in `seen`,
stop at a BLANK parent or a shared parent, fail with ImageIsNotLegalChain
when the parent was already seen. -/
def chainWalk (env : Env) : Nat → List Volume → List String → Volume →
    Except StorageError (List Volume)
  | 0, _, _, _ => Except.error StorageError.fuelExhausted
  | fuel + 1, chain, seen, srcVol =>
    if srcVol.voltype = VolType.SHARED then
      Except.ok chain
    else
      let chain1 := srcVol :: chain
      let seen1 := srcVol.volUUID :: seen
      if srcVol.parent = BLANK_UUID then
        Except.ok chain1
      else if srcVol.parent ∈ seen1 then
        Except.error StorageError.ImageIsNotLegalChain
      else
        match env.find srcVol.parent with
        | none => Except.error StorageError.VolumeDoesNotExist
        | some p => chainWalk env fuel chain1 seen1 p

/-- `Image.getChain`: the chain of volumes of the image as a sorted
(parent-first) list, not including a shared base. -/
def getChain (env : Env) (img : String) (volUUID : Option String) :
    Except StorageError (List Volume) :=
  match volUUID with
  | some u =>
    match env.find u with
    | none => Except.error StorageError.VolumeDoesNotExist
    | some srcVol =>
      if srcVol.voltype = VolType.SHARED then
        Except.ok [srcVol]
      else
        chainWalk env (env.size + 1) [] [] srcVol
  | none =>
    match getImageVolumes env img with
    | [] => Except.error StorageError.ImageDoesNotExistInSD
    | v0 :: rest =>
      if rest = [] ∧ v0.voltype = VolType.SHARED then
        Except.ok [v0]
      else
        match List.find? (fun v => v.voltype = VolType.LEAF) (v0 :: rest) with
        | none => Except.error StorageError.ImageIsNotLegalChain
        | some srcVol => chainWalk env (env.size + 1) [] [] srcVol

/-- Parent-first ordering: each volume after the first names the previous
one as its parent. -/
def parentLinked : List Volume → Prop
  | [] => True
  | [_] => True
  | a :: b :: t => b.parent = a.volUUID ∧ parentLinked (b :: t)

theorem parentLinked_tail {a : Volume} {l : List Volume} (h : parentLinked (a :: l)) :
    parentLinked l := by
  cases l with
  | nil => trivial
  | cons b t => exact h.2

theorem parentLinked_cons {a b : Volume} {l : List Volume}
    (hab : b.parent = a.volUUID) (h : parentLinked (b :: l)) :
    parentLinked (a :: b :: l) :=
  ⟨hab, h⟩

/-- Invariants the walk preserves on an ok result: parent-first order, no
shared member, and membership of the environment. -/
theorem chainWalk_ok (env : Env) :
    ∀ (fuel : Nat) (chain : List Volume) (seen : List String) (v : Volume)
      (c : List Volume),
      chainWalk env fuel chain seen v = Except.ok c →
      parentLinked (v :: chain) →
      (∀ w ∈ chain, w.voltype ≠ VolType.SHARED) →
      (∀ w ∈ chain, w ∈ env) →
      v ∈ env →
      parentLinked c ∧ (∀ w ∈ c, w.voltype ≠ VolType.SHARED) ∧ (∀ w ∈ c, w ∈ env) := by
  intro fuel
  induction fuel with
  | zero => intro chain seen v c h; simp [chainWalk] at h
  | succ n ih =>
    intro chain seen v c h hlink hns hmem hv
    by_cases hsh : v.voltype = VolType.SHARED
    · simp [chainWalk, hsh] at h
      subst h
      exact ⟨parentLinked_tail hlink, hns, hmem⟩
    · by_cases hb : v.parent = BLANK_UUID
      · simp [chainWalk, hsh, hb] at h
        subst h
        refine ⟨hlink, ?_, ?_⟩
        · intro w hw
          rcases List.mem_cons.mp hw with h1 | h1
          · rw [h1]; exact hsh
          · exact hns w h1
        · intro w hw
          rcases List.mem_cons.mp hw with h1 | h1
          · rw [h1]; exact hv
          · exact hmem w h1
      · by_cases hseen : v.parent ∈ v.volUUID :: seen
        · simp [chainWalk, hsh, hb, hseen] at h
        · cases hf : env.find v.parent with
          | none => simp [chainWalk, hsh, hb, hseen, hf] at h
          | some p =>
            have hstep : chainWalk env n (v :: chain) (v.volUUID :: seen) p =
                Except.ok c := by
              simpa [chainWalk, hsh, hb, hseen, hf] using h
            have hpmem : p ∈ env := List.mem_of_find?_eq_some hf
            have hpv : v.parent = p.volUUID := by
              have h2 := List.find?_some hf
              simp at h2
              exact h2.symm
            refine ih (v :: chain) (v.volUUID :: seen) p c hstep ?_ ?_ ?_ hpmem
            · exact parentLinked_cons hpv hlink
            · intro w hw
              rcases List.mem_cons.mp hw with h1 | h1
              · rw [h1]; exact hsh
              · exact hns w h1
            · intro w hw
              rcases List.mem_cons.mp hw with h1 | h1
              · rw [h1]; exact hv
              · exact hmem w h1

/-- C1: getChain returns a parent-first ordered list of volumes of the
environment with a shared template only as the sole member of a
single-volume (template image) result; when no volume of the image has
the LEAF role it fails with ImageIsNotLegalChain; and when the parent
walk reaches a volume already visited (a cycle) it fails with
ImageIsNotLegalChain. -/
theorem getChain_spec :
    (∀ (env : Env) (img : String) (vopt : Option String) (c : List Volume),
      getChain env img vopt = Except.ok c →
      parentLinked c ∧ (∀ w ∈ c, w ∈ env) ∧
      (∀ w ∈ c, w.voltype = VolType.SHARED → c = [w])) ∧
    (∀ (env : Env) (img : String) (v0 : Volume) (rest : List Volume),
      getImageVolumes env img = v0 :: rest →
      ¬ (rest = [] ∧ v0.voltype = VolType.SHARED) →
      (∀ w ∈ v0 :: rest, w.voltype ≠ VolType.LEAF) →
      getChain env img none = Except.error StorageError.ImageIsNotLegalChain) ∧
    (∀ (env : Env) (fuel : Nat) (chain : List Volume) (seen : List String) (v : Volume),
      v.voltype ≠ VolType.SHARED →
      v.parent ≠ BLANK_UUID →
      v.parent ∈ v.volUUID :: seen →
      chainWalk env (fuel + 1) chain seen v =
        Except.error StorageError.ImageIsNotLegalChain) := by
  refine ⟨?_, ?_, ?_⟩
  · intro env img vopt c h
    match vopt with
    | some u =>
      cases hf : env.find u with
      | none => simp [getChain, hf] at h
      | some srcVol =>
        by_cases hsh : srcVol.voltype = VolType.SHARED
        · have hc : c = [srcVol] := by
            have := h
            simp [getChain, hf, hsh] at this
            exact this.symm
          subst hc
          refine ⟨trivial, ?_, ?_⟩
          · intro w hw
            rcases List.mem_singleton.mp hw with h1
            rw [h1]; exact List.mem_of_find?_eq_some hf
          · intro w hw _
            rcases List.mem_singleton.mp hw with h1
            rw [h1]
        · have hw : chainWalk env (env.size + 1) [] [] srcVol = Except.ok c := by
            simpa [getChain, hf, hsh] using h
          have := chainWalk_ok env (env.size + 1) [] [] srcVol c hw trivial
            (by intro w hw; cases hw) (by intro w hw; cases hw)
            (List.mem_of_find?_eq_some hf)
          exact ⟨this.1, this.2.2, fun w hws hsh2 => absurd hsh2 (this.2.1 w hws)⟩
    | none =>
      cases hvols : getImageVolumes env img with
      | nil => simp [getChain, hvols] at h
      | cons v0 rest =>
        by_cases hone : rest = [] ∧ v0.voltype = VolType.SHARED
        · have hc : c = [v0] := by
            have := h
            simp [getChain, hvols, hone] at this
            exact this.symm
          subst hc
          have hv0 : v0 ∈ env := by
            have : v0 ∈ getImageVolumes env img := by rw [hvols]; exact List.mem_cons_self _ _
            exact List.mem_of_mem_filter this
          refine ⟨trivial, ?_, ?_⟩
          · intro w hw
            rcases List.mem_singleton.mp hw with h1
            rw [h1]; exact hv0
          · intro w hw _
            rcases List.mem_singleton.mp hw with h1
            rw [h1]
        · cases hleaf : List.find? (fun v => v.voltype = VolType.LEAF) (v0 :: rest) with
          | none => simp [getChain, hvols, hone, hleaf] at h
          | some srcVol =>
            have hwalk : chainWalk env (env.size + 1) [] [] srcVol = Except.ok c := by
              simpa [getChain, hvols, hone, hleaf] using h
            have hsrcm : srcVol ∈ env := by
              have h1 : srcVol ∈ v0 :: rest := List.mem_of_find?_eq_some hleaf
              have h2 : srcVol ∈ getImageVolumes env img := by rw [hvols]; exact h1
              exact List.mem_of_mem_filter h2
            have := chainWalk_ok env (env.size + 1) [] [] srcVol c hwalk trivial
              (by intro w hw; cases hw) (by intro w hw; cases hw) hsrcm
            exact ⟨this.1, this.2.2, fun w hws hsh2 => absurd hsh2 (this.2.1 w hws)⟩
  · intro env img v0 rest hvols hone hnl
    have hleaf : List.find? (fun v => v.voltype = VolType.LEAF) (v0 :: rest) = none := by
      apply List.find?_eq_none.mpr
      intro w hw
      simpa using hnl w hw
    simp [getChain, hvols, hone, hleaf]
  · intro env fuel chain seen v hsh hb hseen
    simp [chainWalk, hsh, hb, hseen]

/-- A two-volume environment: a base `A` and a leaf `B` on top of it. -/
def envAB : Env :=
  [Volume.mk "A" "img" BLANK_UUID VolType.INTERNAL Legality.LEGAL 1024 false 0 none,
   Volume.mk "B" "img" "A" VolType.LEAF Legality.LEGAL 512 false 0 (some "A")]

/-- A two-volume environment with no leaf. -/
def envNoLeaf : Env :=
  [Volume.mk "A" "img" BLANK_UUID VolType.INTERNAL Legality.LEGAL 1024 false 0 none,
   Volume.mk "B" "img" "A" VolType.INTERNAL Legality.LEGAL 512 false 0 (some "A")]

/-- A self-parented volume, for the cycle branch. -/
def volSelf : Volume :=
  Volume.mk "S" "img" "S" VolType.LEAF Legality.LEGAL 512 false 0 none

theorem getChain_spec_witness :
    (parentLinked envAB ∧ (∀ w ∈ envAB, w ∈ envAB) ∧
      (∀ w ∈ envAB, w.voltype = VolType.SHARED → envAB = [w])) ∧
    (getChain envNoLeaf "img" none = Except.error StorageError.ImageIsNotLegalChain) ∧
    (chainWalk envAB 1 [] [] volSelf = Except.error StorageError.ImageIsNotLegalChain) :=
  ⟨getChain_spec.1 envAB "img" none envAB (by decide),
   getChain_spec.2.1 envNoLeaf "img"
     (Volume.mk "A" "img" BLANK_UUID VolType.INTERNAL Legality.LEGAL 1024 false 0 none)
     [Volume.mk "B" "img" "A" VolType.INTERNAL Legality.LEGAL 512 false 0 (some "A")]
     (by decide) (by decide) (by decide),
   getChain_spec.2.2 envAB 0 [] [] volSelf (by decide) (by decide) (by decide)⟩

/-! ## Image.estimateChainSizeBlk (image.py lines 143-162, claim C8) -/

/-- `int(new_size_blk * sc.COW_OVERHEAD)` with `COW_OVERHEAD = 1.1`
(storage/constants.py line 40), modelled with exact rational arithmetic:
multiplying a block count by 11 and flooring the division by 10.  The
source computes this with a Python float; for the block counts a storage
domain can hold the float expression and the exact one agree. -/
def cowOverheadInt (n : Nat) : Nat :=
  n * 11 / 10

/-- `Image.estimateChainSizeBlk`: an estimate of the whole chain size in
512 byte blocks.  Starts from the size of the template (the parent of the
base of the chain) when one exists, adds the size of every chain volume,
caps the sum at `size` and adds ten percent for cow metadata. -/
def estimateChainSizeBlk (env : Env) (img : String) (volUUID : String) (size : Nat) :
    Except StorageError Nat := do
  let chain ← getChain env img (some volUUID)
  match chain with
  | [] => Except.error StorageError.indexError
  | c0 :: rest => do
    let tmpl ← getParentVolume env c0
    let base := match tmpl with
      | none => 0
      | some t => t.size / BLOCK_SIZE_512
    let s := List.foldl (fun acc v => acc + v.size / BLOCK_SIZE_512) base (c0 :: rest)
    let s := if s > size then size else s
    Except.ok (cowOverheadInt s)

/-- The claim formula for C8, written from the words of the spec: the sum
of the apparent sizes in 512 byte blocks of the volumes along the chain
(which excludes any shared template), capped at the size limit and
multiplied by the COW overhead factor.  Kept separate so that it can be
compared with the source definition `estimateChainSizeBlk`. -/
def estimateChainSizeBlkClaim (env : Env) (img : String) (volUUID : String) (size : Nat) :
    Except StorageError Nat := do
  let chain ← getChain env img (some volUUID)
  let s := (List.map (fun v => v.size / BLOCK_SIZE_512) chain).sum
  Except.ok (cowOverheadInt (min s size))

/-- An environment holding a shared template `T` of another image and a
single leaf volume `L` of image `img` cloned from it. -/
def envTL : Env :=
  [Volume.mk "T" "timg" BLANK_UUID VolType.SHARED Legality.LEGAL 1024 false 0 none,
   Volume.mk "L" "img" "T" VolType.LEAF Legality.LEGAL 512 false 0 (some "T")]

/-- C8 counterexample: for a chain based on a shared template the source
also adds the template size (2 blocks here), so the result (3 blocks,
overhead included) differs from the claim formula over the chain alone
(1 block). -/
theorem estimateChainSizeBlk_cex :
    estimateChainSizeBlk envTL "img" "L" 1000 = Except.ok 3 ∧
    estimateChainSizeBlkClaim envTL "img" "L" 1000 = Except.ok 1 ∧
    estimateChainSizeBlk envTL "img" "L" 1000 ≠
      estimateChainSizeBlkClaim envTL "img" "L" 1000 := by
  refine ⟨by decide, by decide, by decide⟩

theorem foldl_size_blocks (l : List Volume) :
    ∀ n : Nat, List.foldl (fun acc v => acc + v.size / BLOCK_SIZE_512) n l =
      n + (List.map (fun v => v.size / BLOCK_SIZE_512) l).sum := by
  induction l with
  | nil => intro n; simp
  | cons a t ih =>
    intro n
    simp [List.foldl_cons, ih (n + a.size / BLOCK_SIZE_512)]
    omega

/-- C8 as amended: for every image chain and size limit `cap`,
estimateChainSizeBlk returns `int(min(T + S, cap) * 1.1)` where `S` is the
sum of the apparent sizes in 512 byte blocks of the volumes along the
chain and `T` is the apparent size in blocks of the shared template the
chain is based on (zero when the chain has no template). -/
theorem estimateChainSizeBlk_formula (env : Env) (img : String) (volUUID : String)
    (cap : Nat) (c0 : Volume) (rest : List Volume) (tmpl : Option Volume)
    (hchain : getChain env img (some volUUID) = Except.ok (c0 :: rest))
    (htmpl : getParentVolume env c0 = Except.ok tmpl) :
    estimateChainSizeBlk env img volUUID cap =
      Except.ok (cowOverheadInt
        (min ((match tmpl with
               | none => 0
               | some t => t.size / BLOCK_SIZE_512) +
              (List.map (fun v => v.size / BLOCK_SIZE_512) (c0 :: rest)).sum)
             cap)) := by
  have hfold := foldl_size_blocks (c0 :: rest)
  have hmin : ∀ s c : Nat, (if s > c then c else s) = min s c := by
    intro s c
    split <;> omega
  cases tmpl with
  | none =>
    simp only [estimateChainSizeBlk, hchain, htmpl, bind, Except.bind]
    rw [hfold, hmin]
  | some t =>
    simp only [estimateChainSizeBlk, hchain, htmpl, bind, Except.bind]
    rw [hfold, hmin]

theorem estimateChainSizeBlk_formula_witness :
    estimateChainSizeBlk envTL "img" "L" 1000 =
      Except.ok (cowOverheadInt
        (min ((match some (Volume.mk "T" "timg" BLANK_UUID VolType.SHARED
                  Legality.LEGAL 1024 false 0 none) with
               | none => 0
               | some t => t.size / BLOCK_SIZE_512) +
              (List.map (fun v => v.size / BLOCK_SIZE_512)
                [Volume.mk "L" "img" "T" VolType.LEAF Legality.LEGAL 512 false 0
                  (some "T")]).sum)
             1000)) :=
  estimateChainSizeBlk_formula envTL "img" "L" 1000
    (Volume.mk "L" "img" "T" VolType.LEAF Legality.LEGAL 512 false 0 (some "T")) []
    (some (Volume.mk "T" "timg" BLANK_UUID VolType.SHARED Legality.LEGAL 1024 false 0 none))
    (by decide) (by decide)

/-! ## Image.merge commit sequence (image.py lines 937-1012 and 1360-1402, claim C2) -/

/-- Helper: a successful environment lookup returns a volume carrying the
looked-up UUID. -/
theorem find_volUUID {env : Env} {u : String} {v : Volume}
    (h : env.find u = some v) : v.volUUID = u := by
  have h2 := List.find?_some h
  simpa using h2

/-- Helper: a successful environment lookup returns a member of the
environment. -/
theorem find_mem {env : Env} {u : String} {v : Volume}
    (h : env.find u = some v) : v ∈ env :=
  List.mem_of_find?_eq_some h

/-- The subchain walk shared by `markIllegalSubChain` and `removeSubChain`
(the while loops of image.py lines 952-955 and 1006-1012): starting from
the successor volume, apply `act` to every volume and follow the parent
pointer until the ancestor parent (`dstParent`) or a missing parent is
reached.  The parent is produced before `act` runs, as in the source. -/
def subChainWalk (env : Env) (act : String → Event) :
    Nat → Option Volume → String → List Event × Option StorageError
  | 0, _, _ => ([], some StorageError.fuelExhausted)
  | _ + 1, none, _ => ([], none)
  | fuel + 1, some t, dstParent =>
    if t.volUUID = dstParent then
      ([], none)
    else
      match getParentVolume env t with
      | Except.error e => ([], some e)
      | Except.ok pv =>
        let r := subChainWalk env act fuel pv dstParent
        (act t.volUUID :: r.1, r.2)

/-- `Image.markIllegalSubChain`: mark all volumes of the subchain, walked
from the successor (the last chain element) up to the parent of the
ancestor (the first chain element), as ILLEGAL. -/
def markIllegalSubChain (env : Env) (chain : List String) :
    List Event × Option StorageError :=
  match chain with
  | [] => ([], some StorageError.InvalidParameterException)
  | ancestor :: rest =>
    let successor := List.getLastD rest ancestor
    match env.find successor with
    | none => ([], some StorageError.VolumeDoesNotExist)
    | some tmpVol =>
      match env.find ancestor with
      | none => ([], some StorageError.VolumeDoesNotExist)
      | some anc =>
        subChainWalk env (fun u => Event.setLegality u Legality.ILLEGAL)
          (env.size + 1) (some tmpVol) anc.parent

/-- `Image.removeSubChain`: delete all volumes of the subchain, walked the
same way as `markIllegalSubChain`. -/
def removeSubChain (env : Env) (chain : List String) :
    List Event × Option StorageError :=
  match chain with
  | [] => ([], some StorageError.InvalidParameterException)
  | ancestor :: rest =>
    let successor := List.getLastD rest ancestor
    match env.find successor with
    | none => ([], some StorageError.VolumeDoesNotExist)
    | some srcVol =>
      match env.find ancestor with
      | none => ([], some StorageError.VolumeDoesNotExist)
      | some anc =>
        subChainWalk env Event.deleteVolume (env.size + 1) (some srcVol) anc.parent

/-- `Image._shrinkVolumeToOptimalSize`: a no-op for volumes that are not
chunked; otherwise prepare the volume, read its optimal size, tear it
down and reduce it to `optimal_size // sc.BLOCK_SIZE` blocks. -/
def shrinkVolumeToOptimalSize (v : Volume) : List Event :=
  if v.chunked then
    [Event.prepare v.volUUID, Event.teardown v.volUUID,
     Event.reduce v.volUUID (v.optimalSize / BLOCK_SIZE_512)]
  else
    []

/-- The tail of `Image.merge` after the block-level merge variant returned
the chain to remove (image.py lines 1360-1402): clear the task
recoveries, mark the removed subchain ILLEGAL (failures propagate),
remove the subchain (failures only logged), produce the new leaf and
shrink it to its optimal size. -/
def mergeFinalize (env : Env) (chainToRemove : List String) (newLeafUUID : String) :
    List Event × Option StorageError :=
  let m := markIllegalSubChain env chainToRemove
  match m.2 with
  | some e => (Event.clearRecoveries :: m.1, some e)
  | none =>
    let r := removeSubChain env chainToRemove
    let rEvs := r.1 ++ (match r.2 with | some _ => [Event.logWarning] | none => [])
    match env.find newLeafUUID with
    | none => (Event.clearRecoveries :: (m.1 ++ rEvs), some StorageError.VolumeDoesNotExist)
    | some newVol =>
      (Event.clearRecoveries :: (m.1 ++ rEvs ++ shrinkVolumeToOptimalSize newVol), none)

/-- A subchain in walk order (successor first): every listed UUID resolves
in the environment, is not BLANK, differs from the walk terminator `par`,
and the parent pointer of each listed volume is the next listed UUID (the
last one pointing at `par`). -/
def downChainB (env : Env) : List String → String → Bool
  | [], _ => true
  | u :: rest, par =>
    decide (u ≠ BLANK_UUID) && decide (u ≠ par) &&
    (match env.find u with
     | none => false
     | some v =>
       decide (v.parent = (match rest with | [] => par | u2 :: _ => u2))) &&
    downChainB env rest par


/-- The subchain walk visits exactly the volumes of a linked subchain, in
order, applying the action to each, and reports no error. -/
theorem subChainWalk_spec (env : Env) (act : String → Event) :
    ∀ (rest : List String) (u : String) (par : String) (v : Volume) (fuel : Nat),
      downChainB env (u :: rest) par = true →
      env.find u = some v →
      (par = BLANK_UUID ∨ (env.find par).isSome = true) →
      rest.length + 2 ≤ fuel →
      subChainWalk env act fuel (some v) par = ((u :: rest).map act, none) := by
  intro rest
  induction rest with
  | nil =>
    intro u par v fuel hdc hfind hterm hfuel
    simp only [downChainB, hfind, Bool.and_eq_true, decide_eq_true_eq] at hdc
    obtain ⟨⟨⟨hub, hup⟩, hvp⟩, -⟩ := hdc
    obtain ⟨f1, rfl⟩ : ∃ f1, fuel = f1 + 1 := ⟨fuel - 1, by omega⟩
    obtain ⟨f2, rfl⟩ : ∃ f2, f1 = f2 + 1 := ⟨f1 - 1, by omega⟩
    have huu : v.volUUID = u := find_volUUID hfind
    by_cases hb : v.parent = BLANK_UUID
    · simp [subChainWalk, huu, hup, getParentVolume, hb]
    · have hpar : ¬ par = BLANK_UUID := by rw [← hvp]; exact hb
      rcases hterm with hpb | hs
      · exact absurd hpb hpar
      · cases hf : env.find par with
        | none => rw [hf] at hs; simp at hs
        | some pv =>
          have hpvu : pv.volUUID = par := find_volUUID hf
          simp [subChainWalk, huu, hup, getParentVolume, hb, hvp, hf, hpvu, hpar]
  | cons u2 rest2 ih =>
    intro u par v fuel hdc hfind hterm hfuel
    simp only [downChainB, hfind, Bool.and_eq_true, decide_eq_true_eq] at hdc
    obtain ⟨⟨⟨hub, hup⟩, hvp⟩, hdc2⟩ := hdc
    cases hf2 : env.find u2 with
    | none =>
      obtain ⟨⟨-, hms⟩, -⟩ := hdc2
      rw [hf2] at hms
      simp at hms
    | some v2 =>
      obtain ⟨⟨⟨hu2b, hu2p⟩, hms⟩, hrest⟩ := hdc2
      rw [hf2] at hms
      simp only [decide_eq_true_eq] at hms
      have hdc2r : downChainB env (u2 :: rest2) par = true := by
        simp only [downChainB, hf2, Bool.and_eq_true, decide_eq_true_eq]
        exact ⟨⟨⟨hu2b, hu2p⟩, hms⟩, hrest⟩
      obtain ⟨f1, rfl⟩ : ∃ f1, fuel = f1 + 1 := ⟨fuel - 1, by omega⟩
      have huu : v.volUUID = u := find_volUUID hfind
      have hfl : rest2.length + 2 ≤ f1 := by
        simp only [List.length_cons] at hfuel
        omega
      have h2 := ih u2 par v2 f1 hdc2r hf2 hterm hfl
      simp [subChainWalk, huu, hup, getParentVolume, hvp, hu2b, hf2, h2]

/-- C2: after the block-level merge succeeded, merge performs in order:
clear the task recoveries, mark every volume of the removed subchain
ILLEGAL, remove the subchain, and finally shrink the new leaf volume to
its optimal size only when that volume is chunked; for non-chunked
volumes no reduce appears in the trace.  The hypotheses say that the
chain to remove (`a :: rest`, ancestor first) is an actual subchain of
the environment: walked successor-first it is `s :: srev`, every parent
pointer links to the next entry and the last one to the parent `par` of
the ancestor, which resolves or is BLANK. -/
theorem merge_commit_sequence (env : Env) (a s nl par : String)
    (rest srev : List String) (va newLeaf : Volume)
    (hrev : (a :: rest).reverse = s :: srev)
    (hsucc : List.getLastD rest a = s)
    (ha : env.find a = some va)
    (hpar : va.parent = par)
    (hdc : downChainB env (s :: srev) par = true)
    (hterm : par = BLANK_UUID ∨ (env.find par).isSome = true)
    (hlen : srev.length + 2 ≤ env.size + 1)
    (hnl : env.find nl = some newLeaf) :
    mergeFinalize env (a :: rest) nl =
      (Event.clearRecoveries ::
        (((a :: rest).reverse).map (fun u => Event.setLegality u Legality.ILLEGAL) ++
         (((a :: rest).reverse).map Event.deleteVolume ++
          shrinkVolumeToOptimalSize newLeaf)),
       none) ∧
    (newLeaf.chunked = false → shrinkVolumeToOptimalSize newLeaf = []) ∧
    (newLeaf.chunked = true → shrinkVolumeToOptimalSize newLeaf =
      [Event.prepare newLeaf.volUUID, Event.teardown newLeaf.volUUID,
       Event.reduce newLeaf.volUUID (newLeaf.optimalSize / BLOCK_SIZE_512)]) := by
  have hfs : ∃ vs, env.find s = some vs := by
    cases hf : env.find s with
    | none =>
      simp only [downChainB, hf, Bool.and_eq_true] at hdc
      obtain ⟨⟨-, hms⟩, -⟩ := hdc
      simp at hms
    | some vs => exact ⟨vs, rfl⟩
  obtain ⟨vs, hs⟩ := hfs
  have hmark := subChainWalk_spec env (fun u => Event.setLegality u Legality.ILLEGAL)
    srev s par vs (env.size + 1) hdc hs hterm hlen
  have hrem := subChainWalk_spec env Event.deleteVolume
    srev s par vs (env.size + 1) hdc hs hterm hlen
  refine ⟨?_, ?_, ?_⟩
  · have hm : markIllegalSubChain env (a :: rest) =
        ((s :: srev).map (fun u => Event.setLegality u Legality.ILLEGAL), none) := by
      simp only [markIllegalSubChain, hsucc, hs, ha, hpar]
      exact hmark
    have hr : removeSubChain env (a :: rest) =
        ((s :: srev).map Event.deleteVolume, none) := by
      simp only [removeSubChain, hsucc, hs, ha, hpar]
      exact hrem
    simp only [mergeFinalize, hm, hr, hnl, hrev]
    simp
  · intro h
    simp [shrinkVolumeToOptimalSize, h]
  · intro h
    simp [shrinkVolumeToOptimalSize, h]

/-- A four-volume environment for the merge witness: base `P`, subchain
`A` (ancestor) and `B` (successor) on top of it, and a chunked new leaf
`N`. -/
def envMerge : Env :=
  [Volume.mk "P" "img" BLANK_UUID VolType.INTERNAL Legality.LEGAL 4096 false 0 none,
   Volume.mk "A" "img" "P" VolType.INTERNAL Legality.LEGAL 1024 false 0 (some "P"),
   Volume.mk "B" "img" "A" VolType.LEAF Legality.LEGAL 512 false 0 (some "A"),
   Volume.mk "N" "img" "P" VolType.LEAF Legality.LEGAL 2048 true 1048576 (some "P")]

theorem merge_commit_sequence_witness :
    mergeFinalize envMerge ["A", "B"] "N" =
      (Event.clearRecoveries ::
        ((["A", "B"].reverse).map (fun u => Event.setLegality u Legality.ILLEGAL) ++
         ((["A", "B"].reverse).map Event.deleteVolume ++
          shrinkVolumeToOptimalSize
            (Volume.mk "N" "img" "P" VolType.LEAF Legality.LEGAL 2048 true 1048576
              (some "P")))),
       none) :=
  (merge_commit_sequence envMerge "A" "B" "N" "P" ["B"] ["A"]
    (Volume.mk "A" "img" "P" VolType.INTERNAL Legality.LEGAL 1024 false 0 (some "P"))
    (Volume.mk "N" "img" "P" VolType.LEAF Legality.LEGAL 2048 true 1048576 (some "P"))
    (by decide) (by decide) (by decide) (by decide) (by decide)
    (Or.inr (by decide)) (by decide) (by decide)).1

/-! ## Image.move (image.py lines 512-557, claim C5) -/

/-- Image operation codes of image.py. -/
def COPY_OP : Nat := 1

/-- MOVE operation code of image.py. -/
def MOVE_OP : Nat := 2

/-- Outcomes of the phases `Image.move` composes, so that the control
flow of `move` itself (lines 512-557) can be stated: the destination
legality probe, the optional destination delete, `_createTargetImage`,
`_interImagesCopy`, `_finalizeDestinationImage`, and the best-effort
source `_deleteImage`.  Each outcome is the trace of events the phase
performed on success, or the storage exception it raised. -/
structure MovePhases where
  isLegalDst : Bool
  deleteDst : Except StorageError (List Event)
  createTarget : Except StorageError (List Event)
  interCopy : Except StorageError (List Event)
  finalize : Except StorageError (List Event)
  deleteSrc : Except StorageError (List Event)
deriving DecidableEq, Repr

/-- `Image.move`: force the overwrite when the destination image is not
legal, delete the destination image when forced, create the target
image, copy, finalize, relink the template when forced, clear the task
recoveries, and for a MOVE delete the source image, catching (and only
logging) storage exceptions of that delete.  Returns the trace and True. -/
def move (p : MovePhases) (op : Nat) (force0 : Bool) :
    Except StorageError (List Event × Bool) := do
  let force := if ¬ p.isLegalDst then true else force0
  let ev0 ← if force then p.deleteDst else Except.ok []
  let ev1 ← p.createTarget
  let ev2 ← p.interCopy
  let ev3 ← p.finalize
  let ev4 := if force then [Event.templateRelink] else []
  let evs := ev0 ++ ev1 ++ ev2 ++ ev3 ++ ev4 ++ [Event.clearRecoveries]
  if op = MOVE_OP then
    match p.deleteSrc with
    | Except.ok d => Except.ok (evs ++ d, true)
    | Except.error _ => Except.ok (evs ++ [Event.logWarning], true)
  else
    Except.ok (evs, true)

/-- C5: once the copy and finalization phases completed, the task
recoveries are cleared (the clearRecoveries event follows every copy and
finalize event in the trace), and for op = MOVE a failure of the source
image delete is only logged: move still returns ok True and performs no
further action after the commit point beyond the warning. -/
theorem move_commit_and_best_effort_delete (p : MovePhases) (force0 : Bool)
    (e0 e1 e2 e3 : List Event) (err : StorageError)
    (hdd : p.deleteDst = Except.ok e0)
    (hct : p.createTarget = Except.ok e1)
    (hic : p.interCopy = Except.ok e2)
    (hfin : p.finalize = Except.ok e3) :
    (∀ op, op ≠ MOVE_OP →
      move p op force0 =
        Except.ok ((if (if ¬ p.isLegalDst then true else force0) then e0 else []) ++
          e1 ++ e2 ++ e3 ++
          (if (if ¬ p.isLegalDst then true else force0) then [Event.templateRelink]
           else []) ++ [Event.clearRecoveries], true)) ∧
    (p.deleteSrc = Except.error err →
      move p MOVE_OP force0 =
        Except.ok ((if (if ¬ p.isLegalDst then true else force0) then e0 else []) ++
          e1 ++ e2 ++ e3 ++
          (if (if ¬ p.isLegalDst then true else force0) then [Event.templateRelink]
           else []) ++ [Event.clearRecoveries] ++ [Event.logWarning], true)) := by
  constructor
  · intro op hop
    simp only [move, hdd, hct, hic, hfin, bind, Except.bind]
    by_cases hC : p.isLegalDst = false ∨ force0 = true
    · simp [hop, hC]
    · simp [hop, hC]
  · intro hds
    simp only [move, hdd, hct, hic, hfin, hds, bind, Except.bind]
    by_cases hC : p.isLegalDst = false ∨ force0 = true
    · simp [hC, MOVE_OP]
    · simp [hC, MOVE_OP]

theorem move_commit_and_best_effort_delete_witness :
    move (MovePhases.mk true (Except.ok []) (Except.ok []) (Except.ok [])
        (Except.ok []) (Except.error StorageError.StorageException)) MOVE_OP false =
      Except.ok ((if (if ¬ (true : Bool) then true else false) then ([] : List Event)
          else []) ++ [] ++ [] ++ [] ++
        (if (if ¬ (true : Bool) then true else false) then [Event.templateRelink]
         else []) ++ [Event.clearRecoveries] ++ [Event.logWarning], true) :=
  (move_commit_and_best_effort_delete
    (MovePhases.mk true (Except.ok []) (Except.ok []) (Except.ok [])
      (Except.ok []) (Except.error StorageError.StorageException)) false
    [] [] [] [] StorageError.StorageException rfl rfl rfl rfl).2 rfl

/-! ## Image.reconcileVolumeChain and syncVolumeChain (image.py lines
1218-1292, claim C7) -/

/-- `FileVolumeManifest.getChildren`: the volumes whose PUUID record names
the given volume (fileVolume.py lines 169-187, the grep over the meta
files of the image directory). -/
def childrenOf (env : Env) (u : String) : List String :=
  List.map (fun v => v.volUUID) (List.filter (fun v => v.parent = u) env)

/-- The subchain computation of `syncVolumeChain` (image.py lines
1227-1232): walk the current chain parent-first, insert every volume
missing from the actual chain at position 0 of the accumulator, and stop
at the first present volume after the missing run. -/
def subChainOf (actual : List String) : List String → List String → List String
  | acc, [] => acc
  | acc, u :: rest =>
    if u ∈ actual then
      (if acc = [] then subChainOf actual acc rest else acc)
    else
      subChainOf actual (u :: acc) rest

/-- `Image.syncVolumeChain`: fix the volume metadata to reflect the given
actual chain.  Computes the subchain of volumes no longer present; when
its tail volume is a leaf it is marked ILLEGAL, otherwise every child of
the tail volume is repointed to `dstParent`, the parent of the first
subchain entry. -/
def syncVolumeChain (env : Env) (img : String) (volUUID : String)
    (actualChain : List String) : Except StorageError (List Event) := do
  let curChain ← getChain env img (some volUUID)
  match subChainOf actualChain [] (List.map (fun v => v.volUUID) curChain) with
  | [] => Except.ok []
  | s0 :: stail =>
    match env.find s0 with
    | none => Except.error StorageError.VolumeDoesNotExist
    | some v0 =>
      let dstParent := v0.parent
      let tailU := List.getLastD stail s0
      match env.find tailU with
      | none => Except.error StorageError.VolumeDoesNotExist
      | some tv =>
        if tv.voltype = VolType.LEAF then
          Except.ok [Event.setLegality tv.volUUID Legality.ILLEGAL]
        else
          Except.ok (List.map (fun c => Event.setParentMeta c dstParent)
            (childrenOf env tv.volUUID))

/-- The qemu-img walk of `reconcileVolumeChain` (image.py lines
1264-1275): follow the backing file basenames from the stated leaf,
inserting each visited UUID at position 0, so the result is parent
first.  The source loop has no cycle guard; the fuel models the finite
backing chain of a well-formed image. -/
def backingWalk (env : Env) : Nat → List String → String → Except StorageError (List String)
  | 0, _, _ => Except.error StorageError.fuelExhausted
  | fuel + 1, acc, u =>
    let acc1 := u :: acc
    match env.find u with
    | none => Except.error StorageError.VolumeDoesNotExist
    | some v =>
      match v.backing with
      | none => Except.ok acc1
      | some b => backingWalk env fuel acc1 b

/-- `Image.reconcileVolumeChain`: walk the backing chain from the stated
leaf, drop the leaf from the result when its legality is ILLEGAL
(`actualVolumes.remove`), then synchronize the metadata through
`syncVolumeChain` on the last actual volume.  Volume activation and
deactivation are not modelled.  Returns the actual UUID list and the
synchronization events. -/
def reconcileVolumeChain (env : Env) (img : String) (leafVolUUID : String) :
    Except StorageError (List String × List Event) := do
  let actual0 ← backingWalk env (env.size + 1) [] leafVolUUID
  match env.find leafVolUUID with
  | none => Except.error StorageError.VolumeDoesNotExist
  | some v =>
    let actual := if v.legality = Legality.ILLEGAL then
        List.erase actual0 leafVolUUID
      else actual0
    match List.getLast? actual with
    | none => Except.error StorageError.indexError
    | some lastU => do
      let evs ← syncVolumeChain env img lastU actual
      Except.ok (actual, evs)

/-- The chain A <- B <- C <- D with leaf D whose qcow2 header was already
rebased onto A (as after a live merge that removed B and C), while the
volume metadata still records the full chain. -/
def envReconcile : Env :=
  [Volume.mk "A" "img" BLANK_UUID VolType.INTERNAL Legality.LEGAL 1024 false 0 none,
   Volume.mk "B" "img" "A" VolType.INTERNAL Legality.LEGAL 1024 false 0 (some "A"),
   Volume.mk "C" "img" "B" VolType.INTERNAL Legality.LEGAL 1024 false 0 (some "B"),
   Volume.mk "D" "img" "C" VolType.LEAF Legality.LEGAL 1024 false 0 (some "A")]

/-- C7, failing input: reconciling the chain A <- B <- C <- D against the
actual qemu chain [A, D] finds the removed subchain, but because the
subchain list is built newest first, `dstParent` is the parent of the
newest removed volume (B, itself removed) and the repoint happens on the
children of the oldest removed volume: the only event is a no-op
repoint of C onto its existing parent B, and the child D of the removed
run is never repointed to A as the claim (and the syncVolumeChain
docstring) require. -/
theorem reconcileVolumeChain_bug_eval :
    reconcileVolumeChain envReconcile "img" "D" =
      Except.ok (["A", "D"], [Event.setParentMeta "C" "B"]) ∧
    [Event.setParentMeta "C" "B"] ≠ [Event.setParentMeta "D" "A"] := by
  constructor
  · decide
  · decide
